import Mathlib

/-!
Shallow embedding of the pyCalendar synchronization core
(`src/main.py`, `src/google_session.py`, `src/uphf_session.py`).

Times are modelled as integers (seconds on a global timeline).  An ICS
temporal value (the `.dt` of a dtstart/dtend property in `icalendar`) is
either a bare date (an all-day value, carrying no time-of-day) or a fully
qualified aware datetime; Python raises `TypeError` when a bare `date` is
order-compared with an aware `datetime`, which the embedding models
explicitly.

Network effects are modelled by oracles: an oracle `Nat → Bool` tells, for
the k-th request issued by a loop, whether the remote call succeeds or
raises `HttpError`.  Every remote request issued by the program is recorded
in a trace of operations `Op`.
-/

/-- The value of a `DTSTART`/`DTEND` property: either a date-only value
(no time-of-day) or a fully qualified date-time, modelled as seconds. -/
inductive ICSTime where
  | dateOnly (d : Int)
  | dateTime (t : Int)
deriving DecidableEq, Repr

/-- `true` exactly when the value carries a time-of-day. -/
def ICSTime.isFullyQualified : ICSTime → Bool
  | .dateOnly _ => false
  | .dateTime _ => true

/-- Errors a run can raise: `typeError` from comparing a bare date with an
aware datetime, `httpError` from a failed remote call. -/
inductive PyError where
  | typeError
  | httpError
deriving DecidableEq, Repr

/-- Python comparison `event_start > now` at `src/main.py:211`, where `now`
is an aware datetime: a date-only left operand raises `TypeError`. -/
def pyGtTime : ICSTime → Int → Except PyError Bool
  | .dateOnly _, _ => .error .typeError
  | .dateTime t, now => .ok (decide (now < t))

/-- One component of the parsed ICS calendar (`ics_calendar.walk()`):
its name (`"VEVENT"` for events) and the properties the program reads.
`component.get` returns `None` for a missing property, hence `Option`. -/
structure VComponent where
  name : String
  summary : Option String
  location : Option String
  description : Option String
  dtstart : ICSTime
  dtend : ICSTime
deriving DecidableEq, Repr

/-- The `component.name == "VEVENT"` test at `src/main.py:209`. -/
def isVevent (c : VComponent) : Bool := c.name == "VEVENT"

/-- Python `str(x)`: `str(None)` is the literal string `"None"`
(`src/main.py:214` applies `str` to a possibly missing location). -/
def pyStr : Option String → String
  | none => "None"
  | some s => s

/-- The Google event payload built at `src/main.py:212`: the `dateTime`
payload fields hold the isoformat string of `startDt`/`endDt`, which the
embedding keeps as the temporal value itself; both time zones are the
constant `"UTC"`. -/
structure GEvent where
  summary : Option String
  location : String
  description : Option String
  startDt : ICSTime
  startTimeZone : String
  endDt : ICSTime
  endTimeZone : String
  attendee : String
deriving DecidableEq, Repr

/-- Construction of the `google_event` dict (`src/main.py:212`):
`summary` and `description` are passed through as `component.get` returns
them (possibly the null marker), `location` goes through `str`, and the
start and end temporal values are passed through unchanged. -/
def buildGEvent (email : String) (c : VComponent) : GEvent :=
  { summary := c.summary
    location := pyStr c.location
    description := c.description
    startDt := c.dtstart
    startTimeZone := "UTC"
    endDt := c.dtend
    endTimeZone := "UTC"
    attendee := email }

/-- An event already on the remote calendar. -/
structure RemoteEvent where
  id : String
  start : Int
  summary : String
deriving DecidableEq, Repr

/-- A remote request issued by the program, with its outcome
(`ok = false` means the call raised `HttpError`). -/
inductive Op where
  | delete (calId : String) (eventId : String) (ok : Bool)
  | insert (calId : String) (ev : GEvent) (ok : Bool)
deriving DecidableEq, Repr

/-- `true` on delete requests. -/
def Op.isDelete : Op → Bool
  | .delete _ _ _ => true
  | .insert _ _ _ => false

/-- `true` on insert requests. -/
def Op.isInsert : Op → Bool
  | .delete _ _ _ => false
  | .insert _ _ _ => true

/-- `true` on successful insert requests. -/
def Op.isOkInsert : Op → Bool
  | .delete _ _ _ => false
  | .insert _ _ ok => ok

/-- State threaded through the insertion loop of
`add_ics_events_to_google_calendar`: the number of insert requests issued
so far (used to index the oracle), the counter `added_events_count`
(incremented only on success, `src/main.py:231`), and the trace of issued
requests. -/
structure AddState where
  attempts : Nat
  added : Nat
  trace : List Op
deriving DecidableEq, Repr

/-- The `for component in ics_calendar.walk()` loop of
`add_ics_events_to_google_calendar` (`src/main.py:208`): for each
`VEVENT`, compare its start with `now` (a `TypeError` aborts the whole
function, uncaught), build the payload, issue the insert inside
`try/except HttpError` (a failure is logged and the loop continues), count
only successes, and break as soon as `added_events_count >= max_events`
when a limit is given (checked only after a successful insert). -/
def addLoop (insOracle : Nat → Bool) (now : Int) (email calId : String)
    (maxEvents : Option Nat) : List VComponent → AddState → AddState × Option PyError
  | [], s => (s, none)
  | c :: rest, s =>
    if isVevent c then
      match pyGtTime c.dtstart now with
      | .error e => (s, some e)
      | .ok b =>
        if b then
          let ok := insOracle s.attempts
          let ev := buildGEvent email c
          let tr := s.trace ++ [Op.insert calId ev ok]
          if ok then
            let s' : AddState := ⟨s.attempts + 1, s.added + 1, tr⟩
            match maxEvents with
            | some m =>
              if m ≤ s'.added then (s', none)
              else addLoop insOracle now email calId maxEvents rest s'
            | none => addLoop insOracle now email calId maxEvents rest s'
          else
            addLoop insOracle now email calId maxEvents rest ⟨s.attempts + 1, s.added, tr⟩
        else addLoop insOracle now email calId maxEvents rest s
    else addLoop insOracle now email calId maxEvents rest s

/-- `add_ics_events_to_google_calendar` (`src/main.py:174`): `now` is the
`datetime.now(timezone.utc)` read at `src/main.py:198` when the function
starts; the ICS components come from the parsed file. -/
def add_ics_events_to_google_calendar (insOracle : Nat → Bool) (now : Int)
    (email calId : String) (comps : List VComponent) (maxEvents : Option Nat) :
    AddState × Option PyError :=
  addLoop insOracle now email calId maxEvents comps ⟨0, 0, []⟩

/-- The events-list query with timeMin bound and start-time ordering at
`src/main.py:268`: the events of the remote snapshot whose start is at or
after the bound, in the order the server returns them (start-time
ascending; the snapshot list is taken in server order). -/
def listUpcoming (remote : List RemoteEvent) (timeMin : Int) : List RemoteEvent :=
  remote.filter (fun e => decide (timeMin ≤ e.start))

/-- The deletion loop at `src/main.py:280`: delete the fetched events one
by one.  The `try` block of `delete_upcoming_events` wraps the WHOLE loop,
so the request that raises `HttpError` is the last one issued: the loop
aborts there and the exception is caught at function level.  Returns the
issued requests and the counter `total`. -/
def deleteLoop (delOracle : Nat → Bool) (calId : String) :
    List RemoteEvent → Nat → Nat → List Op × Nat
  | [], _, total => ([], total)
  | e :: rest, k, total =>
    if delOracle k then
      let r := deleteLoop delOracle calId rest (k + 1) (total + 1)
      (Op.delete calId e.id true :: r.fst, r.snd)
    else
      ([Op.delete calId e.id false], total)

/-- `delete_upcoming_events` (`src/main.py:246`): `now` is the
`datetime.now(timezone.utc)` read at `src/main.py:265` when the function
starts; fetch the upcoming events and delete them; any `HttpError` is
caught inside the function, so nothing propagates to the caller. -/
def delete_upcoming_events (delOracle : Nat → Bool) (now : Int) (calId : String)
    (remote : List RemoteEvent) : List Op × Nat :=
  let events := listUpcoming remote now
  if events.isEmpty then ([], 0)
  else deleteLoop delOracle calId events 0 0

/-- The mutation portion of `main` (`src/main.py:436`): delete the
upcoming events, then add the ICS events, each phase reading the clock
when it starts.  `clock n` is the value returned by the n-th
`datetime.now(timezone.utc)` call of the pass: the read at
`src/main.py:265` (inside `delete_upcoming_events`) is `clock 0` and the
read at `src/main.py:198` (inside `add_ics_events_to_google_calendar`,
called at `src/main.py:441` with `max_events` left `None`) is `clock 1`.
Returns the trace of issued requests and the error, if any, that aborted
the pass. -/
def mainSync (clock : Nat → Int) (email calId : String)
    (remote : List RemoteEvent) (comps : List VComponent)
    (delOracle insOracle : Nat → Bool) : List Op × Option PyError :=
  let del := delete_upcoming_events delOracle (clock 0) calId remote
  let add := add_ics_events_to_google_calendar insOracle (clock 1) email calId comps none
  (del.fst ++ add.fst.trace, add.snd)

/-- A calendar of the account, as listed by `calendarList().list()`. -/
structure GCalendar where
  summary : String
  timeZone : String
  id : String
deriving DecidableEq, Repr

/-- `GoogleSession.create_calendar` (`src/google_session.py:76`; the same
lookup-then-insert logic is `create_calendar` at `src/main.py:79`): scan
the calendar list for the first calendar whose summary is the requested
name and return its id without inserting; only when none matches, insert
a new calendar with time zone `"Europe/Paris"`.  `freshId` is the id the
server assigns to a newly inserted calendar. -/
def create_calendar (cals : List GCalendar) (name freshId : String) :
    String × List GCalendar :=
  match cals.find? (fun c => c.summary == name) with
  | some c => (c.id, cals)
  | none => (freshId, cals ++ [⟨name, "Europe/Paris", freshId⟩])

/-- Content of `cookies.json` as written by `UPHFSession.save_cookies`:
the cookie jar and the `loaded_time` it was saved at (seconds). -/
structure CookiesFile where
  cookies : List (String × String)
  loaded_time : Int
deriving DecidableEq, Repr

/-- `UPHFSession.get_existing_cookies` (`src/uphf_session.py:55`): when
the cookies file exists and `current_time - loaded_time` is strictly under
one hour (3600 seconds), return the cached cookies; otherwise return
`None`. -/
def get_existing_cookies (file : Option CookiesFile) (current_time : Int) :
    Option (List (String × String)) :=
  match file with
  | some f => if current_time - f.loaded_time < 3600 then some f.cookies else none
  | none => none

/-- Modelled from the spec: the repository has no classifier under `src/`
(the Category Classifier of the spec, section 4.2, has no counterpart in
the code).  Inspect the first two characters of the title, case-sensitively
and without trimming, against the fixed table of known prefixes (`"CM"`
lecture, `"TP"` lab/practical, `"TD"` tutorial, `"DS"` exam); any other
two-character prefix maps to the default category. -/
def classify (title : String) : String :=
  let p := String.take title 2
  if p = "CM" then "lecture"
  else if p = "TP" then "lab"
  else if p = "TD" then "tutorial"
  else if p = "DS" then "exam"
  else "default"

/-- The insert-phase filter the CODE applies at `src/main.py:211`:
a `VEVENT` is inserted exactly when its start is a fully qualified
date-time strictly after the bound. -/
def icsAfter (v : ICSTime) (bound : Int) : Bool :=
  match v with
  | .dateOnly _ => false
  | .dateTime t => decide (bound < t)

/-- The oracle under which every remote call succeeds. -/
def allOk : Nat → Bool := fun _ => true

/-- The oracle under which exactly the k-th request raises `HttpError`. -/
def failAt (k : Nat) : Nat → Bool := fun n => decide (n ≠ k)

/-- Concrete component whose start lies between the two clock readings of
a pass that advances from 0 to 10. -/
def cmEarly : VComponent :=
  ⟨"VEVENT", some "CM Algo", some "B1", some "amphi", .dateTime 5, .dateTime 6⟩

/-- Concrete component whose start equals the cutoff value 5. -/
def compAtCutoff : VComponent :=
  ⟨"VEVENT", some "CM Algo", some "B1", some "amphi", .dateTime 5, .dateTime 7⟩

/-- Concrete component with a qualified start but a date-only end. -/
def compDateEnd : VComponent :=
  ⟨"VEVENT", some "DS Final", none, none, .dateTime 10, .dateOnly 5⟩

/-- Concrete component with no location and no description. -/
def compNoOpt : VComponent :=
  ⟨"VEVENT", some "CM Algo", none, none, .dateTime 10, .dateTime 12⟩

/-- Concrete future component (start 10, after a cutoff of 0). -/
def compFuture : VComponent :=
  ⟨"VEVENT", some "CM Suite", some "B2", some "salle", .dateTime 10, .dateTime 12⟩

/-! ### Claim C3: temporal normalization -/

/-- Claim C3, counterexample: the component `compDateEnd` has a date-only
end; the program inserts it with the end value still a bare date, not a
fully qualified date-time at midnight, refuting the claim that every
emitted end is a fully qualified date-time. -/
theorem date_only_not_normalized_cex :
    (add_ics_events_to_google_calendar allOk 0 "user" "cal" [compDateEnd] none).fst.trace
      = [Op.insert "cal" (buildGEvent "user" compDateEnd) true]
    ∧ (buildGEvent "user" compDateEnd).endDt = ICSTime.dateOnly 5
    ∧ ICSTime.isFullyQualified (buildGEvent "user" compDateEnd).endDt = false := by
  refine ⟨rfl, rfl, rfl⟩

/-- Claim C3, amended: start and end temporal values are passed through
unchanged into the payload (a value carrying a time-of-day is preserved
as-is, and so is a date-only value), and a component whose start is
date-only makes the cutoff comparison raise `TypeError`, aborting the
whole insertion pass before any request of the pass is issued. -/
theorem temporal_passthrough :
    (∀ (email : String) (c : VComponent),
        (buildGEvent email c).startDt = c.dtstart ∧ (buildGEvent email c).endDt = c.dtend)
    ∧ (∀ (insOracle : Nat → Bool) (now : Int) (email calId : String)
        (c : VComponent) (rest : List VComponent) (d : Int) (maxEvents : Option Nat),
        isVevent c = true → c.dtstart = ICSTime.dateOnly d →
        add_ics_events_to_google_calendar insOracle now email calId (c :: rest) maxEvents
          = (⟨0, 0, []⟩, some PyError.typeError)) := by
  refine ⟨fun email c => ⟨rfl, rfl⟩, ?_⟩
  intro insOracle now email calId c rest d maxEvents hv hd
  simp [add_ics_events_to_google_calendar, addLoop, hv, hd, pyGtTime]

/-- Claim C3, witness for `temporal_passthrough` at concrete inputs. -/
theorem temporal_passthrough_witness :
    (buildGEvent "user" compDateEnd).startDt = ICSTime.dateTime 10
    ∧ add_ics_events_to_google_calendar allOk 0 "user" "cal"
        [⟨"VEVENT", some "DS Final", none, none, ICSTime.dateOnly 3, ICSTime.dateOnly 4⟩] none
        = (⟨0, 0, []⟩, some PyError.typeError) := by
  refine ⟨(temporal_passthrough.1 "user" compDateEnd).1.trans rfl, ?_⟩
  exact temporal_passthrough.2 allOk 0 "user" "cal" _ [] 3 none rfl rfl

/-! ### Claim C4: missing optional fields -/

/-- Claim C4, counterexample: a component with no location and no
description is inserted with location the literal string "None" (not the
empty string) and with a null description. -/
theorem missing_fields_not_empty_cex :
    (buildGEvent "user" compNoOpt).location = "None"
    ∧ (buildGEvent "user" compNoOpt).location ≠ ""
    ∧ (buildGEvent "user" compNoOpt).description = none := by
  refine ⟨rfl, by decide, rfl⟩

/-- Claim C4, amended: the location field of the payload is the Python
str of the possibly missing location, so a missing location becomes the
literal string "None", and the description is passed through as returned,
so a missing description stays the null marker; neither normalizes to the
empty string. -/
theorem missing_fields_normalization :
    (∀ (email : String) (c : VComponent),
        (buildGEvent email c).location = pyStr c.location
        ∧ (buildGEvent email c).description = c.description)
    ∧ pyStr none = "None" ∧ (∀ s : String, pyStr (some s) = s) := by
  exact ⟨fun email c => ⟨rfl, rfl⟩, rfl, fun s => rfl⟩

/-! ### Claim C5: the creation window -/

/-- Claim C5, counterexample: with the cutoff at 5, the component
`compAtCutoff` starting exactly at 5 is NOT inserted (the code tests
strict inequality), refuting the claim that an event whose start equals
the cutoff is created. -/
theorem cutoff_boundary_excluded_cex :
    (add_ics_events_to_google_calendar allOk 5 "user" "cal" [compAtCutoff] none).fst.trace = []
    ∧ compAtCutoff.dtstart = ICSTime.dateTime 5
    ∧ isVevent compAtCutoff = true := by
  refine ⟨rfl, rfl, rfl⟩

/-! ### Claim C6: the classifier -/

/-- Claim C6: `classify` is total and deterministic, and any title whose
two-character prefix lies outside the known table maps to the default
category. -/
theorem classify_total_deterministic_default :
    (∀ t : String, ∃ c, classify t = c)
    ∧ (∀ t₁ t₂ : String, t₁ = t₂ → classify t₁ = classify t₂)
    ∧ (∀ t : String, String.take t 2 ≠ "CM" → String.take t 2 ≠ "TP" →
        String.take t 2 ≠ "TD" → String.take t 2 ≠ "DS" → classify t = "default") := by
  refine ⟨fun t => ⟨classify t, rfl⟩, fun t₁ t₂ h => by rw [h], ?_⟩
  intro t h1 h2 h3 h4
  simp [classify, h1, h2, h3, h4]

/-- Claim C6, witness for `classify_total_deterministic_default` at
concrete titles. -/
theorem classify_witness :
    classify "XY Something" = "default"
    ∧ classify "CM Algorithms" = classify "CM Algorithms" := by
  refine ⟨?_, classify_total_deterministic_default.2.1 _ _ rfl⟩
  exact classify_total_deterministic_default.2.2 "XY Something"
    (by decide) (by decide) (by decide) (by decide)

/-! ### Claim C8: idempotent calendar creation -/

/-- Claim C8: when a calendar of the requested name exists, creation
performs no insert (the calendar list is unchanged) and yields the id of
an existing calendar of that name; only when no calendar of that name
exists is a new one appended, with time zone Europe/Paris. -/
theorem create_calendar_idempotent :
    ∀ (cals : List GCalendar) (name freshId : String),
      ((∃ c ∈ cals, c.summary = name) →
        (create_calendar cals name freshId).snd = cals
        ∧ ∃ c ∈ cals, c.summary = name ∧ (create_calendar cals name freshId).fst = c.id)
      ∧ ((∀ c ∈ cals, c.summary ≠ name) →
        create_calendar cals name freshId
          = (freshId, cals ++ [⟨name, "Europe/Paris", freshId⟩])) := by
  intro cals name freshId
  rcases hfind : cals.find? (fun c => c.summary == name) with _ | c
  · have hnone := hfind
    rw [List.find?_eq_none] at hnone
    constructor
    · rintro ⟨c, hc, hcn⟩
      exact absurd (by simpa using hcn) (by simpa using hnone c hc)
    · intro _
      unfold create_calendar
      rw [hfind]
  · have hmem : c ∈ cals := List.mem_of_find?_eq_some hfind
    have hname : c.summary = name := by simpa using List.find?_some hfind
    constructor
    · intro _
      unfold create_calendar
      rw [hfind]
      exact ⟨rfl, c, hmem, hname, rfl⟩
    · intro hall
      exact absurd hname (hall c hmem)

/-- Claim C8, witness for `create_calendar_idempotent`: creating the
calendar Cours when it exists leaves the list unchanged; creating Agenda
when absent appends it with time zone Europe/Paris. -/
theorem create_calendar_idempotent_witness :
    (create_calendar [⟨"Cours", "Europe/Paris", "c1"⟩] "Cours" "fresh").snd
      = [⟨"Cours", "Europe/Paris", "c1"⟩]
    ∧ create_calendar [⟨"Cours", "Europe/Paris", "c1"⟩] "Agenda" "fresh"
      = ("fresh", [⟨"Cours", "Europe/Paris", "c1"⟩, ⟨"Agenda", "Europe/Paris", "fresh"⟩]) := by
  constructor
  · exact ((create_calendar_idempotent [⟨"Cours", "Europe/Paris", "c1"⟩] "Cours" "fresh").1
      ⟨⟨"Cours", "Europe/Paris", "c1"⟩, by simp, rfl⟩).1
  · exact (create_calendar_idempotent [⟨"Cours", "Europe/Paris", "c1"⟩] "Agenda" "fresh").2
      (by decide)

/-! ### Claim C10: the cookie cache -/

/-- Claim C10: the cached cookies are returned exactly when the cookies
file exists and its age is strictly under one hour (3600 seconds); with
no file, or with the age at one hour or more, the result is none. -/
theorem get_existing_cookies_spec :
    (∀ (f : CookiesFile) (ct : Int), ct - f.loaded_time < 3600 →
        get_existing_cookies (some f) ct = some f.cookies)
    ∧ (∀ (f : CookiesFile) (ct : Int), 3600 ≤ ct - f.loaded_time →
        get_existing_cookies (some f) ct = none)
    ∧ (∀ ct : Int, get_existing_cookies none ct = none) := by
  refine ⟨fun f ct h => ?_, fun f ct h => ?_, fun ct => rfl⟩
  · simp [get_existing_cookies, h]
  · simp [get_existing_cookies]
    omega

/-- Claim C10, witness for `get_existing_cookies_spec`: cookies saved at
time 0 are returned at time 100, refused at time 3600, and a missing file
yields none. -/
theorem get_existing_cookies_spec_witness :
    get_existing_cookies (some ⟨[("session", "abc")], 0⟩) 100 = some [("session", "abc")]
    ∧ get_existing_cookies (some ⟨[("session", "abc")], 0⟩) 3600 = none
    ∧ get_existing_cookies none 50 = none := by
  exact ⟨get_existing_cookies_spec.1 ⟨[("session", "abc")], 0⟩ 100 (by decide),
    get_existing_cookies_spec.2.1 ⟨[("session", "abc")], 0⟩ 3600 (by decide),
    get_existing_cookies_spec.2.2 50⟩

/-! ### Loop lemmas for the deletion phase -/

/-- When every delete call succeeds, the deletion loop issues one
successful delete per fetched event, in order. -/
theorem deleteLoop_allOk (calId : String) (events : List RemoteEvent) :
    ∀ (k total : Nat),
      deleteLoop allOk calId events k total
        = (events.map fun e => Op.delete calId e.id true, total + events.length) := by
  induction events with
  | nil => intro k total; simp [deleteLoop]
  | cons e rest ih =>
    intro k total
    simp [deleteLoop, allOk, ih (k + 1) (total + 1)]
    omega

/-- Every request issued by the deletion loop is a delete request. -/
theorem deleteLoop_all_deletes (delOracle : Nat → Bool) (calId : String)
    (events : List RemoteEvent) :
    ∀ (k total : Nat),
      ((deleteLoop delOracle calId events k total).fst.all Op.isDelete) = true := by
  induction events with
  | nil => intro k total; simp [deleteLoop]
  | cons e rest ih =>
    intro k total
    by_cases hk : delOracle k = true
    · simp [deleteLoop, hk, Op.isDelete, ih (k + 1) (total + 1)]
    · simp [deleteLoop, hk, Op.isDelete]

/-- When exactly the delete call of index `j + k` raises, the loop started
at index `j` issues the `k` earlier deletes, then the failing one, and
stops: no request is issued for the later events. -/
theorem deleteLoop_failAt (calId : String) (events : List RemoteEvent) :
    ∀ (k j total : Nat) (hk : k < events.length),
      deleteLoop (failAt (j + k)) calId events j total
        = (((events.take k).map fun e => Op.delete calId e.id true)
            ++ [Op.delete calId (events.get ⟨k, hk⟩).id false], total + k) := by
  induction events with
  | nil => intro k j total hk; exact absurd hk (by simp)
  | cons e rest ih =>
    intro k j total hk
    match k with
    | 0 =>
      simp [deleteLoop, failAt]
    | k + 1 =>
      have horacle : failAt (j + (k + 1)) j = true := by
        simp only [failAt, decide_eq_true_eq]
        omega
      have hrw : j + (k + 1) = (j + 1) + k := by omega
      have hk2 : k < rest.length := by simpa using hk
      simp [deleteLoop, horacle]
      rw [hrw, ih k (j + 1) (total + 1) hk2]
      simp
      omega

/-! ### Loop lemmas for the insertion phase -/

/-- When every insert call succeeds, no limit is set, and every `VEVENT`
start is fully qualified, the insertion loop issues one successful insert
per component passing the strict window test, in file order. -/
theorem addLoop_allOk (now : Int) (email calId : String) (comps : List VComponent) :
    ∀ s : AddState,
      (∀ c ∈ comps, isVevent c = true → ICSTime.isFullyQualified c.dtstart = true) →
      addLoop allOk now email calId none comps s
        = (⟨s.attempts + (comps.filter fun c => isVevent c && icsAfter c.dtstart now).length,
            s.added + (comps.filter fun c => isVevent c && icsAfter c.dtstart now).length,
            s.trace ++ (comps.filter fun c => isVevent c && icsAfter c.dtstart now).map
              (fun c => Op.insert calId (buildGEvent email c) true)⟩, none) := by
  induction comps with
  | nil => intro s h; simp [addLoop]
  | cons c rest ih =>
    intro s h
    have hrest : ∀ c ∈ rest, isVevent c = true → ICSTime.isFullyQualified c.dtstart = true :=
      fun c hc => h c (List.mem_cons_of_mem _ hc)
    cases hv : isVevent c with
    | false =>
      have hfc : (isVevent c && icsAfter c.dtstart now) = false := by simp [hv]
      simp only [addLoop, hv, Bool.false_eq_true, if_false]
      rw [ih s hrest]
      simp [List.filter_cons, hfc]
    | true =>
      rcases hdt : c.dtstart with d | t0
      · have hq := h c (List.mem_cons_self _ _) hv
        rw [hdt] at hq
        simp [ICSTime.isFullyQualified] at hq
      · by_cases hgt : now < t0
        · have hdec : decide (now < t0) = true := by simpa using hgt
          have hfc : (isVevent c && icsAfter c.dtstart now) = true := by
            simp [hv, icsAfter, hdt, hgt]
          simp only [addLoop, hv, hdt, pyGtTime, hdec, allOk, if_true]
          rw [ih _ hrest]
          simp [List.filter_cons, hfc, AddState.mk.injEq, List.append_assoc]
          omega
        · have hdec : decide (now < t0) = false := by simpa using hgt
          have hfc : (isVevent c && icsAfter c.dtstart now) = false := by
            simp [icsAfter, hdt, hgt]
          simp only [addLoop, hv, hdt, pyGtTime, hdec, allOk, if_true,
            Bool.false_eq_true, if_false]
          rw [ih s hrest]
          simp [List.filter_cons, hfc]

/-- Whatever the oracle, the limit and the components, the insertion loop
only appends insert requests to the trace, and the success counter grows
by exactly the number of successful inserts among them. -/
theorem addLoop_trace (insOracle : Nat → Bool) (now : Int) (email calId : String)
    (maxEvents : Option Nat) (comps : List VComponent) :
    ∀ s : AddState,
      ∃ t : List Op,
        (addLoop insOracle now email calId maxEvents comps s).fst.trace = s.trace ++ t
        ∧ t.all Op.isInsert = true
        ∧ (addLoop insOracle now email calId maxEvents comps s).fst.added
            = s.added + (t.filter Op.isOkInsert).length := by
  induction comps with
  | nil => intro s; exact ⟨[], by simp [addLoop], by simp, by simp [addLoop]⟩
  | cons c rest ih =>
    intro s
    cases hv : isVevent c with
    | false =>
      obtain ⟨t, h1, h2, h3⟩ := ih s
      exact ⟨t, by simp [addLoop, hv, h1], h2, by simp [addLoop, hv, h3]⟩
    | true =>
      rcases hdt : c.dtstart with d | t0
      · exact ⟨[], by simp [addLoop, hv, hdt, pyGtTime], by simp,
          by simp [addLoop, hv, hdt, pyGtTime]⟩
      · by_cases hgt : now < t0
        · have hdec : decide (now < t0) = true := by simpa using hgt
          cases hok : insOracle s.attempts with
          | false =>
            obtain ⟨t, h1, h2, h3⟩ := ih ⟨s.attempts + 1, s.added,
              s.trace ++ [Op.insert calId (buildGEvent email c) false]⟩
            refine ⟨Op.insert calId (buildGEvent email c) false :: t, ?_, ?_, ?_⟩
            · simp [addLoop, hv, hdt, pyGtTime, hdec, hok, h1]
            · simp [Op.isInsert, h2]
            · simp [addLoop, hv, hdt, pyGtTime, hdec, hok, h3, Op.isOkInsert]
          | true =>
            cases maxEvents with
            | none =>
              obtain ⟨t, h1, h2, h3⟩ := ih ⟨s.attempts + 1, s.added + 1,
                s.trace ++ [Op.insert calId (buildGEvent email c) true]⟩
              refine ⟨Op.insert calId (buildGEvent email c) true :: t, ?_, ?_, ?_⟩
              · simp [addLoop, hv, hdt, pyGtTime, hdec, hok, h1]
              · simp [Op.isInsert, h2]
              · simp [addLoop, hv, hdt, pyGtTime, hdec, hok, h3, Op.isOkInsert]
                omega
            | some m =>
              by_cases hbreak : m ≤ s.added + 1
              · refine ⟨[Op.insert calId (buildGEvent email c) true], ?_,
                  by simp [Op.isInsert], ?_⟩
                · simp [addLoop, hv, hdt, pyGtTime, hdec, hok, hbreak]
                · simp [addLoop, hv, hdt, pyGtTime, hdec, hok, hbreak, Op.isOkInsert]
              · obtain ⟨t, h1, h2, h3⟩ := ih ⟨s.attempts + 1, s.added + 1,
                  s.trace ++ [Op.insert calId (buildGEvent email c) true]⟩
                refine ⟨Op.insert calId (buildGEvent email c) true :: t, ?_, ?_, ?_⟩
                · simp [addLoop, hv, hdt, pyGtTime, hdec, hok, hbreak, h1]
                · simp [Op.isInsert, h2]
                · simp [addLoop, hv, hdt, pyGtTime, hdec, hok, hbreak, h3, Op.isOkInsert]
                  omega
        · have hdec : decide (now < t0) = false := by simpa using hgt
          obtain ⟨t, h1, h2, h3⟩ := ih s
          exact ⟨t, by simp [addLoop, hv, hdt, pyGtTime, hdec, h1], h2,
            by simp [addLoop, hv, hdt, pyGtTime, hdec, h3]⟩

/-- With a limit `n`, if the success counter starts under `n` it never
exceeds `n`: the loop breaks as soon as the counter reaches the limit. -/
theorem addLoop_added_le (insOracle : Nat → Bool) (now : Int) (email calId : String)
    (n : Nat) (comps : List VComponent) :
    ∀ s : AddState, s.added < n →
      (addLoop insOracle now email calId (some n) comps s).fst.added ≤ n := by
  induction comps with
  | nil => intro s hs; simpa [addLoop] using Nat.le_of_lt hs
  | cons c rest ih =>
    intro s hs
    cases hv : isVevent c with
    | false => simpa [addLoop, hv] using ih s hs
    | true =>
      rcases hdt : c.dtstart with d | t0
      · simpa [addLoop, hv, hdt, pyGtTime] using Nat.le_of_lt hs
      · by_cases hgt : now < t0
        · have hdec : decide (now < t0) = true := by simpa using hgt
          cases hok : insOracle s.attempts with
          | false =>
            simpa [addLoop, hv, hdt, pyGtTime, hdec, hok] using
              ih ⟨s.attempts + 1, s.added,
                s.trace ++ [Op.insert calId (buildGEvent email c) false]⟩ hs
          | true =>
            by_cases hbreak : n ≤ s.added + 1
            · simp [addLoop, hv, hdt, pyGtTime, hdec, hok, hbreak]
              omega
            · have hlt : s.added + 1 < n := by omega
              simpa [addLoop, hv, hdt, pyGtTime, hdec, hok, hbreak] using
                ih ⟨s.attempts + 1, s.added + 1,
                  s.trace ++ [Op.insert calId (buildGEvent email c) true]⟩ hlt
        · have hdec : decide (now < t0) = false := by simpa using hgt
          simpa [addLoop, hv, hdt, pyGtTime, hdec] using ih s hs

/-- With a limit `n`, once the success counter has reached `n` the loop
has stopped: appending further components to the input changes nothing. -/
theorem addLoop_stop (insOracle : Nat → Bool) (now : Int) (email calId : String)
    (n : Nat) (comps : List VComponent) :
    ∀ s : AddState, s.added < n →
      (addLoop insOracle now email calId (some n) comps s).fst.added = n →
      ∀ extra : List VComponent,
        addLoop insOracle now email calId (some n) (comps ++ extra) s
          = addLoop insOracle now email calId (some n) comps s := by
  induction comps with
  | nil =>
    intro s hs hres extra
    simp [addLoop] at hres
    exact absurd hres (by omega)
  | cons c rest ih =>
    intro s hs hres extra
    cases hv : isVevent c with
    | false =>
      simp only [addLoop, hv, Bool.false_eq_true, if_false, List.cons_append] at hres ⊢
      exact ih s hs hres extra
    | true =>
      rcases hdt : c.dtstart with d | t0
      · simp [addLoop, hv, hdt, pyGtTime]
      · by_cases hgt : now < t0
        · have hdec : decide (now < t0) = true := by simpa using hgt
          cases hok : insOracle s.attempts with
          | false =>
            simp [addLoop, hv, hdt, pyGtTime, hdec, hok] at hres ⊢
            exact ih ⟨s.attempts + 1, s.added,
              s.trace ++ [Op.insert calId (buildGEvent email c) false]⟩ hs hres extra
          | true =>
            by_cases hbreak : n ≤ s.added + 1
            · simp [addLoop, hv, hdt, pyGtTime, hdec, hok, hbreak]
            · have hlt : s.added + 1 < n := by omega
              simp [addLoop, hv, hdt, pyGtTime, hdec, hok, hbreak] at hres ⊢
              exact ih ⟨s.attempts + 1, s.added + 1,
                s.trace ++ [Op.insert calId (buildGEvent email c) true]⟩ hlt hres extra
        · have hdec : decide (now < t0) = false := by simpa using hgt
          simp [addLoop, hv, hdt, pyGtTime, hdec] at hres ⊢
          exact ih s hs hres extra

/-! ### Claim C5 (amended): the creation window is strict -/

/-- Claim C5, amended: with every insert succeeding and no limit, the
events created are exactly the `VEVENT` components whose start is
STRICTLY after the cutoff, in file order; an event starting exactly at
the cutoff is not created. -/
theorem toCreate_strictly_after (now : Int) (email calId : String)
    (comps : List VComponent)
    (h : ∀ c ∈ comps, isVevent c = true → ICSTime.isFullyQualified c.dtstart = true) :
    (add_ics_events_to_google_calendar allOk now email calId comps none).fst.trace
      = (comps.filter fun c => isVevent c && icsAfter c.dtstart now).map
          (fun c => Op.insert calId (buildGEvent email c) true) := by
  unfold add_ics_events_to_google_calendar
  rw [addLoop_allOk now email calId comps ⟨0, 0, []⟩ h]
  simp

/-- Claim C5, witness for `toCreate_strictly_after` at concrete inputs:
with the cutoff at 5, of a component starting at 10 and one starting at
exactly 5, only the former is created. -/
theorem toCreate_strictly_after_witness :
    (add_ics_events_to_google_calendar allOk 5 "user" "cal"
        [compFuture, compAtCutoff] none).fst.trace
      = ([compFuture, compAtCutoff].filter fun c => isVevent c && icsAfter c.dtstart 5).map
          (fun c => Op.insert "cal" (buildGEvent "user" c) true) :=
  toCreate_strictly_after 5 "user" "cal" [compFuture, compAtCutoff] (by decide)

/-! ### Claim C1: the cutoff of a pass -/

/-- Claim C1, counterexample: with the clock advancing from 0 to 10
between the two phases of the pass, the component `cmEarly` (start 5) is
selected by the cutoff computed at the start of the pass (reading 0), so
under a single shared cutoff it would be created; yet the pass issues no
request at all for it, because the creation phase used the later reading
10. -/
theorem cutoff_not_shared_cex :
    (mainSync (fun n => (10 : Int) * n) "user" "cal" [] [cmEarly] allOk allOk).fst = []
    ∧ isVevent cmEarly = true
    ∧ icsAfter cmEarly.dtstart 0 = true
    ∧ icsAfter cmEarly.dtstart 10 = false := by
  decide

/-- Claim C1, amended: each phase computes its own cutoff when it starts.
All deletions of a pass use the clock reading taken at the start of the
delete phase, and all insertions use the (later) reading taken at the
start of the creation phase; the two cutoffs coincide only when the clock
does not advance between the phases. -/
theorem per_phase_cutoff (clock : Nat → Int) (email calId : String)
    (remote : List RemoteEvent) (comps : List VComponent)
    (h : ∀ c ∈ comps, isVevent c = true → ICSTime.isFullyQualified c.dtstart = true) :
    (mainSync clock email calId remote comps allOk allOk).fst
      = (listUpcoming remote (clock 0)).map (fun e => Op.delete calId e.id true)
        ++ (comps.filter fun c => isVevent c && icsAfter c.dtstart (clock 1)).map
            (fun c => Op.insert calId (buildGEvent email c) true) := by
  have hadd := addLoop_allOk (clock 1) email calId comps ⟨0, 0, []⟩ h
  by_cases hemp : (listUpcoming remote (clock 0)).isEmpty = true
  · have hnil : listUpcoming remote (clock 0) = [] := by simpa using hemp
    simp [mainSync, delete_upcoming_events, add_ics_events_to_google_calendar,
      hemp, hnil, hadd]
  · simp [mainSync, delete_upcoming_events, add_ics_events_to_google_calendar,
      hemp, hadd, deleteLoop_allOk]

/-- Claim C1, witness for `per_phase_cutoff` at concrete inputs. -/
theorem per_phase_cutoff_witness :
    (mainSync (fun n => (10 : Int) * n) "user" "cal" [⟨"r1", 20, "old"⟩]
        [compFuture] allOk allOk).fst
      = (listUpcoming [⟨"r1", 20, "old"⟩] ((fun n : Nat => (10 : Int) * n) 0)).map
          (fun e => Op.delete "cal" e.id true)
        ++ ([compFuture].filter fun c =>
              isVevent c && icsAfter c.dtstart ((fun n : Nat => (10 : Int) * n) 1)).map
            (fun c => Op.insert "cal" (buildGEvent "user" c) true) :=
  per_phase_cutoff (fun n => (10 : Int) * n) "user" "cal" [⟨"r1", 20, "old"⟩]
    [compFuture] (by decide)

/-! ### Claim C2: failure isolation in the delete phase -/

/-- Claim C2, counterexample: two upcoming remote events, the delete of
the first fails; the program issues NO delete request for the second
event (the loop aborts), refuting the claim that the remaining deletions
are still issued. -/
theorem delete_failure_stops_loop_cex :
    (delete_upcoming_events (failAt 0) 0 "cal"
        [⟨"e1", 10, "a"⟩, ⟨"e2", 20, "b"⟩]).fst
      = [Op.delete "cal" "e1" false]
    ∧ Op.delete "cal" "e2" true ∉ (delete_upcoming_events (failAt 0) 0 "cal"
        [⟨"e1", 10, "a"⟩, ⟨"e2", 20, "b"⟩]).fst
    ∧ Op.delete "cal" "e2" false ∉ (delete_upcoming_events (failAt 0) 0 "cal"
        [⟨"e1", 10, "a"⟩, ⟨"e2", 20, "b"⟩]).fst := by
  decide

/-- Claim C2, amended: if the delete of the (k+1)-th fetched event fails,
the deletion loop stops: exactly the first k+1 delete requests are issued
and the later fetched events get none (the exception is caught once
around the whole loop); the exception does not escape the delete phase,
and the subsequent creation phase still runs in full, exactly as it would
have without the failure. -/
theorem delete_failure_aborts_phase_creation_runs (clock : Nat → Int)
    (email calId : String) (remote : List RemoteEvent) (comps : List VComponent)
    (insOracle : Nat → Bool) (k : Nat)
    (hk : k < (listUpcoming remote (clock 0)).length) :
    (mainSync clock email calId remote comps (failAt k) insOracle).fst
      = ((listUpcoming remote (clock 0)).take k).map (fun e => Op.delete calId e.id true)
        ++ [Op.delete calId ((listUpcoming remote (clock 0)).get ⟨k, hk⟩).id false]
        ++ (add_ics_events_to_google_calendar insOracle (clock 1) email calId
              comps none).fst.trace := by
  have hne : (listUpcoming remote (clock 0)).isEmpty = false := by
    rcases hl : listUpcoming remote (clock 0) with _ | ⟨e, es⟩
    · rw [hl] at hk
      simp at hk
    · simp
  have hdel := deleteLoop_failAt calId (listUpcoming remote (clock 0)) k 0 0 hk
  rw [Nat.zero_add] at hdel
  simp [mainSync, delete_upcoming_events, hne, hdel]

/-- Claim C2, witness for `delete_failure_aborts_phase_creation_runs`:
two upcoming remote events, first delete fails, no components to create:
the whole pass issues exactly one (failing) delete request. -/
theorem delete_failure_witness :
    (mainSync (fun _ => 0) "user" "cal" [⟨"e1", 10, "a"⟩, ⟨"e2", 20, "b"⟩] []
        (failAt 0) allOk).fst = [Op.delete "cal" "e1" false] := by
  rw [delete_failure_aborts_phase_creation_runs (fun _ => 0) "user" "cal"
    [⟨"e1", 10, "a"⟩, ⟨"e2", 20, "b"⟩] [] allOk 0 (by decide)]
  decide

/-! ### Claim C7: phase ordering -/

/-- Claim C7: in every pass, deletion globally precedes creation: the
trace of issued requests is a block of delete requests followed by a block
of insert requests, whatever the clock, oracles, remote snapshot and
components; no insert request is issued before the delete phase has
finished issuing requests. -/
theorem deletion_precedes_creation (clock : Nat → Int) (email calId : String)
    (remote : List RemoteEvent) (comps : List VComponent)
    (delOracle insOracle : Nat → Bool) :
    ∃ d a : List Op,
      (mainSync clock email calId remote comps delOracle insOracle).fst = d ++ a
      ∧ d.all Op.isDelete = true ∧ a.all Op.isInsert = true := by
  obtain ⟨t, h1, h2, h3⟩ := addLoop_trace insOracle (clock 1) email calId none comps ⟨0, 0, []⟩
  refine ⟨(delete_upcoming_events delOracle (clock 0) calId remote).fst, t, ?_, ?_, h2⟩
  · simp [mainSync, add_ics_events_to_google_calendar, h1]
  · unfold delete_upcoming_events
    by_cases hemp : (listUpcoming remote (clock 0)).isEmpty = true
    · simp [hemp]
    · simp [hemp, deleteLoop_all_deletes]

/-! ### Claim C9: the max_events limit -/

/-- Claim C9, counterexample: with max_events = 0, one future component
and a succeeding insert, the program still inserts one event (the limit is
checked only after a successful insert), refuting the claim that at most
n events are inserted for every n. -/
theorem max_events_zero_cex :
    (add_ics_events_to_google_calendar allOk 0 "user" "cal" [compFuture]
        (some 0)).fst.added = 1
    ∧ ¬((add_ics_events_to_google_calendar allOk 0 "user" "cal" [compFuture]
        (some 0)).fst.added ≤ 0) := by
  decide

/-- Claim C9, amended: when max_events = n with n at least 1, at most n
events are inserted; the counter counts exactly the successful inserts
(a failed insert does not count toward the limit); and once the n-th
successful insert has happened the loop has stopped: appending further
components to the input changes nothing. -/
theorem max_events_limit (insOracle : Nat → Bool) (now : Int) (email calId : String)
    (comps : List VComponent) (n : Nat) (hn : 1 ≤ n) :
    (add_ics_events_to_google_calendar insOracle now email calId comps (some n)).fst.added ≤ n
    ∧ (add_ics_events_to_google_calendar insOracle now email calId comps (some n)).fst.added
        = (((add_ics_events_to_google_calendar insOracle now email calId comps
              (some n)).fst.trace).filter Op.isOkInsert).length
    ∧ ((add_ics_events_to_google_calendar insOracle now email calId comps
          (some n)).fst.added = n →
        ∀ extra, add_ics_events_to_google_calendar insOracle now email calId
            (comps ++ extra) (some n)
          = add_ics_events_to_google_calendar insOracle now email calId comps (some n)) := by
  have h0 : (0 : Nat) < n := hn
  refine ⟨?_, ?_, ?_⟩
  · exact addLoop_added_le insOracle now email calId n comps ⟨0, 0, []⟩ h0
  · obtain ⟨t, h1, h2, h3⟩ := addLoop_trace insOracle now email calId (some n) comps ⟨0, 0, []⟩
    unfold add_ics_events_to_google_calendar
    rw [h3, h1]
    simp
  · intro hres extra
    exact addLoop_stop insOracle now email calId n comps ⟨0, 0, []⟩ h0 hres extra

/-- Claim C9, witness for `max_events_limit`: limit 2, first insert fails
and the next two succeed, so the counter stops at 2 and a further
component changes nothing. -/
theorem max_events_limit_witness :
    (add_ics_events_to_google_calendar (failAt 0) 0 "user" "cal"
        [compFuture, compFuture, compFuture] (some 2)).fst.added ≤ 2
    ∧ add_ics_events_to_google_calendar (failAt 0) 0 "user" "cal"
        ([compFuture, compFuture, compFuture] ++ [compFuture]) (some 2)
      = add_ics_events_to_google_calendar (failAt 0) 0 "user" "cal"
        [compFuture, compFuture, compFuture] (some 2) := by
  have h := max_events_limit (failAt 0) 0 "user" "cal"
    [compFuture, compFuture, compFuture] 2 (by decide)
  exact ⟨h.1, h.2.2 (by decide) [compFuture]⟩
